import Mathlib

/-!
Shallow embedding of the SAS container workflow engine
(`SasOrchestrator` and `SasContainerRegistry`).

Documents are modelled as `List Char` (the byte/character content of the
container spec file); the JavaScript string primitives used by the source
(`indexOf`, `slice`, `trim`, `split("\n")`, `toLowerCase`, regex-shaped
line matching) are embedded as executable functions on `List Char`.
Fallible storage operations are embedded with an explicit outcome
parameter (`Except Unit (List Char)` for reads, a `Bool` for writes):
the source wraps each operation in try/catch and degrades to a fixed
safe default, which the embedding renders as the corresponding match arm.
-/

namespace SasSpec

/-- The three workflow phases of `SasAgentPhase`. -/
inductive SasAgentPhase where
  | instantiator
  | planner
  | implementer
deriving DecidableEq, Repr

/-- Invariant statuses, from the `SasInvariantStatus` union type. -/
inductive SasInvariantStatus where
  | satisfied
  | violated
  | unknown
deriving DecidableEq, Repr

/-- Plan item statuses, from the inline `"todo" | "done"` union. -/
inductive SasPlanStatus where
  | todo
  | done
deriving DecidableEq, Repr

/-- An invariant parsed from the Mechanics section (`SasInvariant`). -/
structure SasInvariant where
  id : String
  description : List Char
  status : SasInvariantStatus
deriving DecidableEq, Repr

/-- A plan item parsed from the Plan section (`SasPlanItem`). -/
structure SasPlanItem where
  id : String
  text : List Char
  status : SasPlanStatus
deriving DecidableEq, Repr

/-- The readiness summary returned by `getDeterminacyState`. -/
structure SasDeterminacyState where
  determinacy : ℚ
  invariants : List SasInvariant
  plan : List SasPlanItem
  readyForPlanning : Bool
  readyForImplementation : Bool
deriving Repr

/-- The authorization decision returned by `validatePlannedToolExecution`. -/
structure SasDecision where
  allowed : Bool
  reason : Option String
  planItemId : Option String
deriving DecidableEq, Repr

/-- The determinacy evaluator: the pure core of
`SasOrchestrator.getDeterminacyState` (part_000 lines 194-209), taking the
already-read invariant list, plan list and mapping-layer flag.
`total = invariants.length || 1` is the JS "or 1 when zero" idiom;
`determinacy = Math.max(0, Math.min(1, satisfied / total))`. -/
def getDeterminacyState (invariants : List SasInvariant) (plan : List SasPlanItem)
    (mappingReady : Bool) : SasDeterminacyState :=
  let satisfied := (invariants.filter (fun inv => inv.status == .satisfied)).length
  let total : Nat := if invariants.length = 0 then 1 else invariants.length
  let determinacy : ℚ := max 0 (min 1 ((satisfied : ℚ) / (total : ℚ)))
  let readyForPlanning := mappingReady && decide (0 < invariants.length)
  let hasKnownInvariant := invariants.any (fun inv => inv.status != .unknown)
  let readyForImplementation :=
    plan.any (fun item => item.status == .todo)
      && (decide ((1 : ℚ) / 2 ≤ determinacy) || !hasKnownInvariant)
  { determinacy := determinacy
    invariants := invariants
    plan := plan
    readyForPlanning := readyForPlanning
    readyForImplementation := readyForImplementation }

/-- JS `String.prototype.trimStart` on char lists. -/
def trimStart (s : List Char) : List Char :=
  s.dropWhile Char.isWhitespace

/-- JS `String.prototype.trimEnd` on char lists. -/
def trimEnd (s : List Char) : List Char :=
  (s.reverse.dropWhile Char.isWhitespace).reverse

/-- JS `String.prototype.trim` on char lists. -/
def trimStr (s : List Char) : List Char :=
  trimEnd (trimStart s)

/-- JS `String.prototype.indexOf` (first index at which `pat` occurs in `s`,
`none` for the JS `-1` sentinel). -/
def strIndexOf? (s pat : List Char) : Option Nat :=
  if pat.isPrefixOf s then some 0
  else
    match s with
    | [] => none
    | _ :: t => (strIndexOf? t pat).map (· + 1)

/-- JS `String.prototype.indexOf` with a `fromIndex` argument. -/
def strIndexOfFrom (s pat : List Char) (start : Nat) : Option Nat :=
  (strIndexOf? (s.drop start) pat).map (· + start)

/-- JS `String.prototype.slice(a, b)` (for the in-range indices the engine
uses; an empty list results when `b ≤ a`). -/
def strSlice (s : List Char) (a b : Nat) : List Char :=
  (s.take b).drop a

/-- JS `String.prototype.includes`. -/
def strIncludes (s sub : List Char) : Bool :=
  (strIndexOf? s sub).isSome

/-- The section heading constants of `SECTION_HEADINGS`
(SasContainerRegistry.ts lines 18-26). -/
def taskClaimHeading : List Char := "## 0. Task-Claim (C_t, E_t)".data

/-- Heading of the Mapping-Layer section. -/
def mappingLayerHeading : List Char := "## 1. Mapping Layer for this Container".data

/-- Heading of the Mechanics/Invariants section. -/
def mechanicsHeading : List Char := "## 2. Mechanics & Invariants".data

/-- Heading of the Code-Mapping-Table section. -/
def mappingTableHeading : List Char := "## 3. Code Mapping Table".data

/-- Heading of the Plan section. -/
def planHeading : List Char := "## 4. Plan State (Agent 2 Output)".data

/-- Heading of the Implementation-Log section. -/
def implementationHeading : List Char := "## 5. Implementation Diffs (Agent 3 Output)".data

/-- Heading of the Open-Questions section. -/
def openQuestionsHeading : List Char := "## 6. Open Questions / Indeterminate Regions".data

/-- The slice of the document the three readers inspect for a section: from
the first occurrence of the heading up to the next `"\n## "` marker (or the
end of the document), mirroring part_000 lines 344-347, 369-374 and 440-446.
Note the slice begins at the heading itself, so the heading line is part of
it; `none` when the heading is absent. -/
def sectionSlice (content heading : List Char) : Option (List Char) :=
  match strIndexOf? content heading with
  | none => none
  | some i =>
    match strIndexOfFrom content "\n## ".data (i + heading.length) with
    | none => some (content.drop i)
    | some j => some (strSlice content i j)

/-- `SasOrchestrator.hasMappingLayer` (part_000 lines 336-359), pure core:
the Mapping-Layer slice has some trimmed, non-empty line that does not
contain `"pending"` and does not end with `": _"`. -/
def hasMappingLayer (content : List Char) : Bool :=
  match sectionSlice content mappingLayerHeading with
  | none => false
  | some body =>
    ((body.splitOn '\n').map trimStr).any
      (fun line => !line.isEmpty && !(strIncludes line "pending".data)
        && !((": _".data).isSuffixOf line))

/-- The checklist-line regex `/^- \[( |x)\]\s*(.+)$/i` of `readPlanItems`
(part_000 line 379), applied to a trimmed line: returns the status and the
captured text. -/
def decodePlanLine (t : List Char) : Option (SasPlanStatus × List Char) :=
  match t with
  | '-' :: ' ' :: '[' :: c :: ']' :: rest =>
    if c = ' ' ∨ c.toLower = 'x' then
      let text := rest.dropWhile Char.isWhitespace
      if text.isEmpty then none
      else some (if c.toLower = 'x' then .done else .todo, text)
    else none
  | _ => none

/-- `SasOrchestrator.readPlanItems` (part_000 lines 361-393), pure core:
decode each line of the Plan slice with the checklist regex; ids are the
positional `S<line-index+1>`. -/
def readPlanItems (content : List Char) : List SasPlanItem :=
  match sectionSlice content planHeading with
  | none => []
  | some body =>
    (body.splitOn '\n').enum.filterMap (fun p =>
      match decodePlanLine (trimStr p.2) with
      | none => none
      | some (st, text) => some ⟨"S" ++ toString (p.1 + 1), text, st⟩)

/-- Case-insensitive match of one status word followed by `]`, the building
block of the invariant regex `/^- \[(satisfied|violated|unknown)\]/i`. -/
def matchStatusWord (rest w : List Char) : Option (List Char) :=
  if (rest.take w.length).map Char.toLower = w then
    match rest.drop w.length with
    | ']' :: r2 => some r2
    | _ => none
  else none

/-- The invariant-line regex `/^- \[(satisfied|violated|unknown)\]\s*(.+)$/i`
of `readInvariants` (part_000 line 454), applied to a trimmed line. -/
def matchInvariantTag (t : List Char) : Option (SasInvariantStatus × List Char) :=
  match t with
  | '-' :: ' ' :: '[' :: rest =>
    match matchStatusWord rest "satisfied".data with
    | some r2 =>
      let d := r2.dropWhile Char.isWhitespace
      if d.isEmpty then none else some (.satisfied, d)
    | none =>
      match matchStatusWord rest "violated".data with
      | some r2 =>
        let d := r2.dropWhile Char.isWhitespace
        if d.isEmpty then none else some (.violated, d)
      | none =>
        match matchStatusWord rest "unknown".data with
        | some r2 =>
          let d := r2.dropWhile Char.isWhitespace
          if d.isEmpty then none else some (.unknown, d)
        | none => none
  | _ => none

/-- The fallback `trimmed.replace(/^-\s*/, "")` of `readInvariants`
(part_000 line 465). -/
def stripLeadingDash (t : List Char) : List Char :=
  match t with
  | '-' :: rest => rest.dropWhile Char.isWhitespace
  | _ => t

/-- `SasOrchestrator.readInvariants` (part_000 lines 432-474), pure core:
per non-empty, non-heading line of the Mechanics slice, either a tagged
invariant line, or (when not a `": _"` / `"pending"` placeholder) an
`unknown` invariant with the leading dash stripped; ids are the positional
`I<line-index+1>`. -/
def readInvariants (content : List Char) : List SasInvariant :=
  match sectionSlice content mechanicsHeading with
  | none => []
  | some body =>
    (body.splitOn '\n').enum.filterMap (fun p =>
      let t := trimStr p.2
      if t.isEmpty then none
      else if ("##".data).isPrefixOf t then none
      else
        match matchInvariantTag t with
        | some (st, desc) => some ⟨"I" ++ toString (p.1 + 1), desc, st⟩
        | none =>
          if !((": _".data).isSuffixOf t) && !(strIncludes t "pending".data) then
            some ⟨"I" ++ toString (p.1 + 1), stripLeadingDash t, .unknown⟩
          else none)

/-- `SasOrchestrator.getDeterminacyState` at the document level: the three
readers composed with the evaluator (part_000 lines 194-209). -/
def getDeterminacyStateOfDoc (content : List Char) : SasDeterminacyState :=
  getDeterminacyState (readInvariants content) (readPlanItems content)
    (hasMappingLayer content)

/-- Deny reason of the phase gate (part_000 line 215). -/
def denyPhaseReason : String :=
  "SAS is not in implementer phase; plan steps must be approved first."

/-- Deny reason of the readiness gate (part_000 line 219). -/
def denyReadyReason : String :=
  "Determinacy too low or no open plan items to execute."

/-- Deny reason of the plan-match gate (part_000 line 226). -/
def denyMatchReason : String :=
  "Tool request is not mapped to any open plan step."

/-- `SasOrchestrator.validatePlannedToolExecution` (part_000 lines 211-230)
over the already-read document state: phase gate, readiness gate, then the
first `todo` plan item whose lower-cased text includes the lower-cased tool
name. -/
def validatePlannedToolExecution (currentPhase : Option SasAgentPhase)
    (invariants : List SasInvariant) (plan : List SasPlanItem)
    (mappingReady : Bool) (toolName : List Char) : SasDecision :=
  let state := getDeterminacyState invariants plan mappingReady
  if currentPhase ≠ some .implementer then
    ⟨false, some denyPhaseReason, none⟩
  else if !state.readyForImplementation then
    ⟨false, some denyReadyReason, none⟩
  else
    let normalizedTool := toolName.map Char.toLower
    match state.plan.find? (fun item =>
        item.status == .todo && strIncludes (item.text.map Char.toLower) normalizedTool) with
    | none => ⟨false, some denyMatchReason, none⟩
    | some matching => ⟨true, none, some matching.id⟩

/-- The specification-side matching predicate of `authorizeAction`: the item
is `todo` and its text contains the tool name as a case-insensitive
substring. -/
def toolMatches (toolName : List Char) (item : SasPlanItem) : Prop :=
  item.status = .todo ∧ (toolName.map Char.toLower) <:+: (item.text.map Char.toLower)

instance (toolName : List Char) (item : SasPlanItem) :
    Decidable (toolMatches toolName item) := by
  unfold toolMatches
  infer_instance

/-- `SasOrchestrator.appendToSection` (part_000 lines 271-303), pure
transform on a successfully read document: locate the heading, trim the
body's trailing blank space, append the entry as a new final body line, and
rebuild the document as `before ++ newBody ++ "\n\n" ++ after.trimStart()`;
a missing heading appends a fresh section at the end. -/
def appendToSection (content heading entry : List Char) : List Char :=
  match strIndexOf? content heading with
  | none => trimEnd content ++ "\n\n".data ++ heading ++ "\n".data ++ entry ++ "\n".data
  | some headingIndex =>
    let nextHeadingIndex := strIndexOfFrom content "\n## ".data (headingIndex + heading.length)
    let sectionStart := strIndexOfFrom content "\n".data (headingIndex + heading.length)
    let bodyStart := match sectionStart with
      | none => headingIndex + heading.length
      | some i => i + 1
    let bodyEnd := match nextHeadingIndex with
      | none => content.length
      | some j => j
    let before := content.take bodyStart
    let existingBody := trimEnd (strSlice content bodyStart bodyEnd)
    let after := content.drop bodyEnd
    let newBody := if existingBody.isEmpty then entry else existingBody ++ "\n".data ++ entry
    before ++ newBody ++ "\n\n".data ++ trimStart after

/-- `SasOrchestrator.replaceSectionBody` (part_000 lines 305-334), pure
transform on a successfully read document: same heading location as
`appendToSection`, body replaced wholesale by the trimmed new body. -/
def replaceSectionBody (content heading newBody : List Char) : List Char :=
  match strIndexOf? content heading with
  | none => trimEnd content ++ "\n\n".data ++ heading ++ "\n".data ++ trimStr newBody ++ "\n".data
  | some headingIndex =>
    let nextHeadingIndex := strIndexOfFrom content "\n## ".data (headingIndex + heading.length)
    let sectionStart := strIndexOfFrom content "\n".data (headingIndex + heading.length)
    let bodyStart := match sectionStart with
      | none => headingIndex + heading.length
      | some i => i + 1
    let bodyEnd := match nextHeadingIndex with
      | none => content.length
      | some j => j
    let before := content.take bodyStart
    let after := content.drop bodyEnd
    before ++ trimStr newBody ++ "\n\n".data ++ trimStart after

/-- Plan body encoder of `writePlanItemsFromList` (part_000 lines 422-430):
one checklist line per item, a placeholder todo line for the empty list. -/
def encodePlanItems (items : List SasPlanItem) : List Char :=
  if items.isEmpty then "- [ ] Pending plan items".data
  else
    List.intercalate "\n".data (items.map (fun item =>
      "- [".data ++ (if item.status = .done then "x".data else " ".data)
        ++ "] ".data ++ item.text))

/-- Status keyword of an invariant, as interpolated by `writeInvariants`. -/
def statusText : SasInvariantStatus → List Char
  | .satisfied => "satisfied".data
  | .violated => "violated".data
  | .unknown => "unknown".data

/-- Mechanics body encoder of `writeInvariants` (part_000 lines 476-484):
one `- [status] description` line per invariant, the `- Invariants: _`
placeholder for the empty list. -/
def encodeInvariants (invariants : List SasInvariant) : List Char :=
  if invariants.isEmpty then "- Invariants: _".data
  else
    List.intercalate "\n".data (invariants.map (fun inv =>
      "- [".data ++ statusText inv.status ++ "] ".data ++ inv.description))

/-- The `findIndex`-then-assign step of `markPlanStepComplete` (part_000
lines 241-244): flip the first `unknown` invariant to `satisfied`, leaving
everything else in place. -/
def flipFirstUnknown : List SasInvariant → List SasInvariant
  | [] => []
  | inv :: rest =>
    if inv.status = .unknown then { inv with status := .satisfied } :: rest
    else inv :: flipFirstUnknown rest

/-- The three persisted effects of one `markPlanStepComplete` call: the plan
list handed to `writePlanItemsFromList`, the invariant list handed to
`writeInvariants` (`none` when `writeInvariants` is not called), and the
summary handed to `recordImplementationUpdate`. -/
structure MarkStepResult where
  planWritten : List SasPlanItem
  invariantsWritten : Option (List SasInvariant)
  logSummary : String
deriving DecidableEq, Repr

/-- `SasOrchestrator.markPlanStepComplete` (part_000 lines 232-250) over the
already-read document state: mark the matching plan item done, rewrite the
plan, flip the first `unknown` invariant (when the invariant list is
non-empty and such an invariant exists), and log a summary. -/
def markPlanStepComplete (planItemId : String) (note : Option String)
    (planItems : List SasPlanItem) (invariants : List SasInvariant) : MarkStepResult :=
  let updated := planItems.map (fun item =>
    if item.id = planItemId then { item with status := .done } else item)
  let invariantsWritten :=
    if invariants.any (fun inv => inv.status == .unknown) then
      some (flipFirstUnknown invariants)
    else none
  let summary := match note with
    | some n => planItemId ++ ": " ++ n
    | none => "Completed plan step " ++ planItemId
  ⟨updated, invariantsWritten, summary⟩

/-- `true` on the lower-case alphanumerics the sanitizer keeps
(`/[^a-z0-9]+/` complement). -/
def isLowerAlnum (c : Char) : Bool :=
  ('a' ≤ c && c ≤ 'z') || ('0' ≤ c && c ≤ '9')

/-- Run collapser of `sanitizeContainerId`: replace each maximal run of
non-alphanumerics by a single hyphen (`replace(/[^a-z0-9]+/g, "-")`). The
flag records whether the previous character belonged to a run whose hyphen
was already emitted. -/
def collapseNonAlnumAux : Bool → List Char → List Char
  | _, [] => []
  | inRun, c :: rest =>
    if isLowerAlnum c then c :: collapseNonAlnumAux false rest
    else if inRun then collapseNonAlnumAux true rest
    else '-' :: collapseNonAlnumAux true rest

/-- `replace(/[^a-z0-9]+/g, "-")` on a lower-cased string. -/
def collapseNonAlnum (l : List Char) : List Char :=
  collapseNonAlnumAux false l

/-- `replace(/(^-|-$)+/g, "")` as it acts on the run-collapsed string (which
carries at most one leading and one trailing hyphen): drop the leading
hyphen, if any, then the trailing one, if any. -/
def stripEdgeHyphens (l : List Char) : List Char :=
  let l1 := if l.head? = some '-' then l.drop 1 else l
  if l1.getLast? = some '-' then l1.dropLast else l1

/-- `sanitizeContainerId` (SasContainerRegistry.ts lines 28-32): trim,
lower-case, collapse non-alphanumeric runs to hyphens, strip edge hyphens,
fall back to `"task"` when empty. -/
def sanitizeContainerId (rawId : List Char) : List Char :=
  let trimmed := (trimStr rawId).map Char.toLower
  let normalized := stripEdgeHyphens (collapseNonAlnum trimmed)
  if normalized.isEmpty then "task".data else normalized

/-- The metadata record `SasContainerMetadata`. -/
structure SasContainerMetadata where
  containerId : List Char
  title : List Char
  createdAt : Option (List Char)
  scopePaths : Option (List (List Char))
  primaryModel : Option (List Char)
  backupModel : Option (List Char)

/-- `title.replace(/"/g, '\\"')` of `buildFrontmatter`. -/
def escapeQuotes (s : List Char) : List Char :=
  s.foldr (fun c acc => if c = '"' then '\\' :: '"' :: acc else c :: acc) []

/-- `buildFrontmatter` (SasContainerRegistry.ts lines 34-75); `now` stands
for the external `new Date().toISOString()` used when no `createdAt` is
supplied. -/
def buildFrontmatter (now : List Char) (metadata : SasContainerMetadata) : List Char :=
  let createdAt := metadata.createdAt.getD now
  let scopePaths := match metadata.scopePaths with
    | some ps => if ps.isEmpty then [".".data] else ps
    | none => [".".data]
  let primaryModel := metadata.primaryModel.getD "gpt-5.1-thinking".data
  let backupModel := metadata.backupModel.getD "gpt-4.1".data
  List.intercalate "\n".data
    ([ "---".data,
       "container_id: ".data ++ sanitizeContainerId metadata.containerId,
       "title: \"".data ++ escapeQuotes metadata.title ++ "\"".data,
       "created_at: \"".data ++ createdAt ++ "\"".data,
       "version: 1".data,
       "status: \"active\"".data,
       "scope:".data,
       "  paths:".data ]
     ++ scopePaths.map (fun p => "    - \"".data ++ p ++ "\"".data)
     ++ [ "  tests: []".data,
          "models:".data,
          "  primary: \"".data ++ primaryModel ++ "\"".data,
          "  backup: \"".data ++ backupModel ++ "\"".data,
          "---".data ])

/-- `buildInitialTemplate` (SasContainerRegistry.ts lines 77-112): the fresh
document, frontmatter followed by the seven sections with their placeholder
bodies, joined by newlines. -/
def buildInitialTemplate (now : List Char) (metadata : SasContainerMetadata)
    (initialTask : Option (List Char)) : List Char :=
  let frontmatter := buildFrontmatter now metadata
  let description := match initialTask with
    | some t => trimStr t
    | none => "Pending user intent".data
  List.intercalate "\n".data
    [ frontmatter,
      [],
      taskClaimHeading,
      "- User intent: ".data ++ description,
      "- Task claim: Pending determinacy mapping.".data,
      [],
      mappingLayerHeading,
      "- Entities: _".data,
      "- Attributes: _".data,
      "- Relations: _".data,
      "- Constraints: _".data,
      [],
      mechanicsHeading,
      "- Invariants: _".data,
      [],
      mappingTableHeading,
      "| ID | Concept | File:Line(s) | Kind | Status |".data,
      "| -- | -------- | ------------- | ---- | ------ |".data,
      "| M1 | pending | pending | pending | unknown |".data,
      [],
      planHeading,
      "- [ ] Pending plan items".data,
      [],
      implementationHeading,
      "- No implementation actions recorded yet.".data,
      [],
      openQuestionsHeading,
      "- None recorded.".data,
      [] ]

/-- The file system visible to the registry: an association of paths to file
contents. -/
def SasFs : Type := List (List Char × List Char)

/-- `fileExistsAtPath` over the modelled file system. -/
def fileExistsAtPath (fs : SasFs) (p : List Char) : Bool :=
  (List.lookup p fs).isSome

/-- The derived spec path `<workspaceRoot>/sas/containers/<id>.sas.md`. -/
def specFilePath (workspaceRoot containerId : List Char) : List Char :=
  workspaceRoot ++ "/sas/containers/".data ++ sanitizeContainerId containerId
    ++ ".sas.md".data

/-- `SasContainerRegistry.ensureSpecFile` (SasContainerRegistry.ts lines
123-139). `ok = false` is the catch branch taken on any storage failure:
the registry returns `undefined` and the file system is unchanged. With
`ok = true`, the template is written only when no file exists at the
derived path. -/
def ensureSpecFile (ok : Bool) (now workspaceRoot : List Char) (fs : SasFs)
    (metadata : SasContainerMetadata) (initialTask : Option (List Char)) :
    SasFs × Option (List Char) :=
  if !ok then (fs, none)
  else
    let specPath := specFilePath workspaceRoot metadata.containerId
    if fileExistsAtPath fs specPath then (fs, some specPath)
    else ((specPath, buildInitialTemplate now metadata initialTask) :: fs, some specPath)

/-- `readInvariants` with its try/catch (part_000 lines 438-473): a failed
document read degrades to the empty list. -/
def readInvariantsCaught (r : Except Unit (List Char)) : List SasInvariant :=
  match r with
  | .error _ => []
  | .ok content => readInvariants content

/-- `readPlanItems` with its try/catch (part_000 lines 367-392): a failed
document read degrades to the empty list. -/
def readPlanItemsCaught (r : Except Unit (List Char)) : List SasPlanItem :=
  match r with
  | .error _ => []
  | .ok content => readPlanItems content

/-- `hasMappingLayer` with its try/catch (part_000 lines 342-358): a failed
document read degrades to `false`. -/
def hasMappingLayerCaught (r : Except Unit (List Char)) : Bool :=
  match r with
  | .error _ => false
  | .ok content => hasMappingLayer content

/-- `appendToSection` with its try/catch (part_000 lines 277-302): a failed
read or a failed write leaves the document as it was. -/
def appendToSectionCaught (readOk writeOk : Bool) (content heading entry : List Char) :
    List Char :=
  if readOk then
    if writeOk then appendToSection content heading entry else content
  else content

/-- `replaceSectionBody` with its try/catch (part_000 lines 311-333): a
failed read or a failed write leaves the document as it was. -/
def replaceSectionBodyCaught (readOk writeOk : Bool) (content heading newBody : List Char) :
    List Char :=
  if readOk then
    if writeOk then replaceSectionBody content heading newBody else content
  else content

/-- `formatPhase` (part_000 lines 261-269). -/
def formatPhase : SasAgentPhase → List Char
  | .instantiator => "A1 Instantiator".data
  | .planner => "A2 Planner".data
  | .implementer => "A3 Implementer".data

/-- The fixed three-role protocol description of `getSpecInstructions`. -/
def sasLoopSummary : List Char :=
  ("Operate within the SAS three-agent loop: A1=Instantiator (spec intent), "
    ++ "A2=Planner (mapping + plan), A3=Implementer (apply approved diffs).").data

/-- `SasOrchestrator.getSpecInstructions` (part_000 lines 148-179) with its
try/catch: a failed document read degrades to `none` (the `undefined`
prompt context); otherwise the labelled bundle with the document truncated
to `maxChars`. -/
def getSpecInstructions (r : Except Unit (List Char)) (fileLabel : List Char)
    (scopePaths : Option (List (List Char))) (currentPhase : Option SasAgentPhase)
    (maxChars : Nat) : Option (List Char) :=
  match r with
  | .error _ => none
  | .ok content =>
    let trimmed := trimStr content
    let truncated :=
      if maxChars < trimmed.length then trimmed.take maxChars ++ "\n... (truncated)".data
      else trimmed
    let scopeText := match scopePaths with
      | some ps => if ps.isEmpty then ".".data else List.intercalate ", ".data ps
      | none => ".".data
    let phaseLabel := match currentPhase with
      | some p => formatPhase p
      | none => "unspecified".data
    some (List.intercalate "\n\n".data
      [ "SAS container spec: ".data ++ fileLabel,
        sasLoopSummary,
        "Scope paths: ".data ++ scopeText,
        "Current SAS phase: ".data ++ phaseLabel,
        "Ground planning and execution in this spec (sections 0-6).".data,
        truncated ])

/-- `validatePlannedToolExecution` as it behaves over a document whose read
outcome is `r`: the three readers behind `getDeterminacyState` each degrade
on failure, after which the gates run as usual. -/
def validatePlannedToolExecutionCaught (currentPhase : Option SasAgentPhase)
    (r : Except Unit (List Char)) (toolName : List Char) : SasDecision :=
  validatePlannedToolExecution currentPhase (readInvariantsCaught r)
    (readPlanItemsCaught r) (hasMappingLayerCaught r) toolName

/-- Specification-side mapping-layer check, following §4.2 of the spec: at
least one trimmed, non-empty line of the section's *body* — the text after
the heading line — neither contains `"pending"` nor ends with `": _"`. Kept
beside the code's `hasMappingLayer`, whose slice starts at the heading line
itself, to compare the two. -/
def hasMappingLayerSpec (content : List Char) : Bool :=
  match sectionSlice content mappingLayerHeading with
  | none => false
  | some body =>
    (((body.splitOn '\n').drop 1).map trimStr).any
      (fun line => !line.isEmpty && !(strIncludes line "pending".data)
        && !((": _".data).isSuffixOf line))

/-- A representative freshly created document: default models and scope, a
fixed creation timestamp, no initial task. -/
def sampleMetadata : SasContainerMetadata :=
  ⟨"Auth Tokens!!".data, "Auth Tokens".data, some "2025-01-01T00:00:00.000Z".data,
    none, none, none⟩

/-- The initial template built for `sampleMetadata`. -/
def freshTemplate : List Char :=
  buildInitialTemplate "2025-01-01T00:00:00.000Z".data sampleMetadata none

end SasSpec

namespace SasSpec

set_option maxRecDepth 400000

/-- `strIndexOf?` on the empty string finds only the empty pattern. -/
theorem strIndexOf?_nil (pat : List Char) :
    strIndexOf? [] pat = if pat.isEmpty then some 0 else none := by
  cases pat with
  | nil => simp [strIndexOf?, List.isPrefixOf]
  | cons c p => simp [strIndexOf?, List.isPrefixOf]

/-- One unfolding step of `strIndexOf?`. -/
theorem strIndexOf?_cons (c : Char) (t pat : List Char) :
    strIndexOf? (c :: t) pat =
      if pat.isPrefixOf (c :: t) then some 0 else (strIndexOf? t pat).map (· + 1) := by
  rw [strIndexOf?]

/-- `strIndexOf?` returns exactly the least index at which the pattern is a
prefix of the rest of the string — the JS `indexOf` contract. -/
theorem strIndexOf?_eq_some_iff (s pat : List Char) (i : Nat) :
    strIndexOf? s pat = some i ↔
      (pat <+: s.drop i ∧ ∀ j, j < i → ¬ pat <+: s.drop j) := by
  induction s generalizing i with
  | nil =>
    rw [strIndexOf?_nil]
    cases pat with
    | nil =>
      simp only [List.isEmpty_nil, if_true, List.drop_nil]
      constructor
      · rintro h
        injection h with h
        subst h
        exact ⟨List.nil_prefix, by omega⟩
      · rintro ⟨-, h2⟩
        rcases Nat.eq_zero_or_pos i with rfl | hpos
        · rfl
        · exact absurd List.nil_prefix (h2 0 hpos)
    | cons c p =>
      simp only [List.isEmpty_cons, if_false, List.drop_nil]
      constructor
      · rintro ⟨⟩
      · rintro ⟨h1, -⟩
        exact absurd (List.IsPrefix.length_le h1) (by simp)
  | cons c t ih =>
    rw [strIndexOf?_cons]
    by_cases hp : pat.isPrefixOf (c :: t)
    · rw [if_pos hp]
      have hp' : pat <+: (c :: t) := by
        rwa [List.isPrefixOf_iff_prefix] at hp
      constructor
      · rintro h
        injection h with h
        subst h
        exact ⟨hp', by omega⟩
      · rintro ⟨-, h2⟩
        rcases Nat.eq_zero_or_pos i with rfl | hpos
        · rfl
        · exact absurd hp' (by simpa using h2 0 hpos)
    · rw [if_neg hp]
      have hp' : ¬ pat <+: (c :: t) := by
        rwa [List.isPrefixOf_iff_prefix] at hp
      constructor
      · rintro h
        rcases Option.map_eq_some'.mp h with ⟨d, hd, rfl⟩
        rcases (ih d).mp hd with ⟨h1, h2⟩
        refine ⟨by simpa using h1, ?_⟩
        intro j hj
        cases j with
        | zero => simpa using hp'
        | succ j' =>
          simp only [List.drop_succ_cons]
          exact h2 j' (by omega)
      · rintro ⟨h1, h2⟩
        cases i with
        | zero => simp at h1; exact absurd h1 hp'
        | succ i' =>
          have : strIndexOf? t pat = some i' := by
            refine (ih i').mpr ⟨by simpa using h1, ?_⟩
            intro j hj
            have := h2 (j + 1) (by omega)
            simpa using this
          simp [this]

/-- `strIndexOf?` succeeds exactly when the pattern occurs somewhere. -/
theorem strIndexOf?_isSome_iff (s pat : List Char) :
    (strIndexOf? s pat).isSome = true ↔ ∃ i, pat <+: s.drop i := by
  constructor
  · intro h
    rcases Option.isSome_iff_exists.mp h with ⟨i, hi⟩
    exact ⟨i, ((strIndexOf?_eq_some_iff s pat i).mp hi).1⟩
  · rintro ⟨i, hi⟩
    by_contra hnone
    rw [Option.not_isSome_iff_eq_none] at hnone
    rcases Nat.lt_wfRel.wf.has_min {j | pat <+: s.drop j} ⟨i, hi⟩ with ⟨k, hk, hmin⟩
    have : strIndexOf? s pat = some k := by
      refine (strIndexOf?_eq_some_iff s pat k).mpr ⟨hk, ?_⟩
      intro j hj hcon
      exact hmin j hcon hj
    rw [this] at hnone
    cases hnone

/-- The JS `includes` test agrees with list-infix containment. -/
theorem strIncludes_iff (s sub : List Char) :
    strIncludes s sub = true ↔ sub <:+: s := by
  unfold strIncludes
  rw [strIndexOf?_isSome_iff]
  constructor
  · rintro ⟨i, hi⟩
    exact hi.isInfix.trans (s.drop_suffix i).isInfix
  · rintro ⟨u, v, huv⟩
    refine ⟨u.length, ?_⟩
    rw [← huv]
    rw [show u ++ sub ++ v = u ++ (sub ++ v) by simp]
    rw [List.drop_left]
    exact ⟨v, rfl⟩

/-- `find?` returns exactly the first element satisfying the predicate. -/
theorem find?_eq_some_iff_first {α : Type} (p : α → Bool) (l : List α) (x : α) :
    l.find? p = some x ↔
      ∃ k, l.get? k = some x ∧ p x = true
        ∧ ∀ j y, j < k → l.get? j = some y → p y = false := by
  induction l generalizing x with
  | nil => simp
  | cons a t ih =>
    by_cases hpa : p a
    · rw [List.find?_cons_of_pos _ hpa]
      constructor
      · rintro h
        injection h with h
        subst h
        exact ⟨0, rfl, hpa, by omega⟩
      · rintro ⟨k, hk, hpx, hleast⟩
        cases k with
        | zero => simp at hk; simp [hk]
        | succ k' =>
          have := hleast 0 a (by omega) rfl
          rw [this] at hpa
          cases hpa
    · rw [List.find?_cons_of_neg _ hpa]
      rw [ih]
      constructor
      · rintro ⟨k, hk, hpx, hleast⟩
        refine ⟨k + 1, by simpa using hk, hpx, ?_⟩
        intro j y hj hy
        cases j with
        | zero =>
          simp only [List.get?_cons_zero] at hy
          injection hy with hy
          subst hy
          simpa using hpa
        | succ j' =>
          simp only [List.get?_cons_succ] at hy
          exact hleast j' y (by omega) hy
      · rintro ⟨k, hk, hpx, hleast⟩
        cases k with
        | zero =>
          simp only [List.get?_cons_zero] at hk
          injection hk with hk
          subst hk
          exact absurd hpx hpa
        | succ k' =>
          simp only [List.get?_cons_succ] at hk
          refine ⟨k', hk, hpx, ?_⟩
          intro j y hj hy
          exact hleast (j + 1) y (by omega) (by simpa using hy)

/-- `flipFirstUnknown` rewrites exactly the first `unknown` invariant (in
list order) to `satisfied`, leaving every other entry in place. -/
theorem flipFirstUnknown_first (invariants : List SasInvariant)
    (h : invariants.any (fun i => i.status == .unknown) = true) :
    ∃ k x, invariants.get? k = some x ∧ x.status = .unknown
      ∧ (∀ j y, j < k → invariants.get? j = some y → y.status ≠ .unknown)
      ∧ flipFirstUnknown invariants
          = invariants.take k ++ ⟨x.id, x.description, .satisfied⟩ :: invariants.drop (k + 1) := by
  induction invariants with
  | nil => simp at h
  | cons a t ih =>
    by_cases ha : a.status = .unknown
    · refine ⟨0, a, rfl, ha, by omega, ?_⟩
      simp [flipFirstUnknown, ha]
    · have ht : t.any (fun i => i.status == .unknown) = true := by
        simp only [List.any_cons, Bool.or_eq_true, beq_iff_eq] at h
        rcases h with h | h
        · exact absurd h ha
        · exact h
      rcases ih ht with ⟨k, x, hk, hx, hleast, hflip⟩
      refine ⟨k + 1, x, by simpa using hk, hx, ?_, ?_⟩
      · intro j y hj hy
        cases j with
        | zero =>
          simp only [List.get?_cons_zero] at hy
          injection hy with hy
          subst hy
          exact ha
        | succ j' =>
          simp only [List.get?_cons_succ] at hy
          exact hleast j' y (by omega) hy
      · simp only [flipFirstUnknown, if_neg ha, hflip, List.take_succ_cons, List.drop_succ_cons,
          List.cons_append]

/-- The boolean matching test of `validatePlannedToolExecution` agrees with
the `toolMatches` predicate. -/
theorem toolMatches_decide (toolName : List Char) (item : SasPlanItem) :
    (item.status == SasPlanStatus.todo
      && strIncludes (item.text.map Char.toLower) (toolName.map Char.toLower)) = true
      ↔ toolMatches toolName item := by
  rw [Bool.and_eq_true, beq_iff_eq, strIncludes_iff]
  exact Iff.rfl

/-- With a `todo` item present and every invariant still `unknown`,
readiness for implementation holds whatever the determinacy value. -/
theorem readyForImplementation_of_all_unknown (invariants : List SasInvariant)
    (plan : List SasPlanItem) (mappingReady : Bool)
    (h1 : plan.any (fun item => item.status == .todo) = true)
    (h2 : invariants.all (fun i => i.status == .unknown) = true) :
    (getDeterminacyState invariants plan mappingReady).readyForImplementation = true := by
  simp only [getDeterminacyState]
  rw [h1]
  have hany : invariants.any (fun inv => inv.status != .unknown) = false := by
    simp only [List.any_eq_false, bne_iff_ne, ne_eq, not_not]
    simp only [List.all_eq_true, beq_iff_eq] at h2
    exact h2
  rw [hany]
  simp

/-- C2: `readyForImplementation` is true iff some plan item is `todo` and
(determinacy is at least one half, or every invariant is still `unknown`);
in particular an all-`unknown` invariant list never blocks implementation
through the determinacy threshold. -/
theorem readyForImplementation_iff (invariants : List SasInvariant)
    (plan : List SasPlanItem) (mappingReady : Bool) :
    (getDeterminacyState invariants plan mappingReady).readyForImplementation = true
      ↔ (∃ item ∈ plan, item.status = .todo)
        ∧ ((1 : ℚ) / 2 ≤ (getDeterminacyState invariants plan mappingReady).determinacy
            ∨ ∀ inv ∈ invariants, inv.status = .unknown) := by
  simp only [getDeterminacyState, Bool.and_eq_true, Bool.or_eq_true, List.any_eq_true,
    beq_iff_eq, bne_iff_ne, ne_eq, decide_eq_true_eq, Bool.not_eq_true']
  constructor
  · rintro ⟨⟨item, hmem, hstat⟩, h2⟩
    refine ⟨⟨item, hmem, hstat⟩, ?_⟩
    rcases h2 with h | h
    · exact Or.inl h
    · right
      intro inv hinv
      by_contra hne
      have : invariants.any (fun inv => inv.status != .unknown) = true := by
        simp only [List.any_eq_true, bne_iff_ne, ne_eq]
        exact ⟨inv, hinv, hne⟩
      rw [this] at h
      simp at h
  · rintro ⟨⟨item, hmem, hstat⟩, h2⟩
    refine ⟨⟨item, hmem, hstat⟩, ?_⟩
    rcases h2 with h | h
    · exact Or.inl h
    · right
      simp only [Bool.not_eq_true', List.any_eq_false, bne_iff_ne, ne_eq, not_not]
      exact h

/-- C2 witness at a concrete input: one `todo` item and one `unknown`
invariant give readiness despite a zero determinacy. -/
theorem readyForImplementation_iff_witness :
    (getDeterminacyState [⟨"I1", ['a'], .unknown⟩] [⟨"S2", ['b'], .todo⟩]
        false).readyForImplementation = true := by
  rw [readyForImplementation_iff]
  exact ⟨⟨⟨"S2", ['b'], .todo⟩, by simp, rfl⟩, Or.inr (by intro inv h; simp at h; simp [h])⟩

/-- C5: determinacy equals the count of `satisfied` invariants divided by
`max 1 total`, clamped to `[0, 1]`; it always lies in `[0, 1]`, and with an
empty invariant list it equals `0`. -/
theorem determinacy_clamped (invariants : List SasInvariant)
    (plan : List SasPlanItem) (mappingReady : Bool) :
    (getDeterminacyState invariants plan mappingReady).determinacy
        = max 0 (min 1 ((invariants.countP (fun inv => decide (inv.status = .satisfied)) : ℚ)
            / ((Nat.max 1 invariants.length : Nat) : ℚ)))
      ∧ 0 ≤ (getDeterminacyState invariants plan mappingReady).determinacy
      ∧ (getDeterminacyState invariants plan mappingReady).determinacy ≤ 1
      ∧ (getDeterminacyState [] plan mappingReady).determinacy = 0 := by
  refine ⟨?_, ?_, ?_, ?_⟩
  · simp only [getDeterminacyState]
    have hcount : (invariants.filter (fun inv => inv.status == .satisfied)).length
        = invariants.countP (fun inv => decide (inv.status = .satisfied)) := by
      rw [List.countP_eq_length_filter]
      congr 1
    have htotal : (if invariants.length = 0 then 1 else invariants.length)
        = Nat.max 1 invariants.length := by
      rcases Nat.eq_zero_or_pos invariants.length with h | h
      · simp [h]
      · simp [Nat.max_eq_right h, Nat.not_eq_zero_of_lt h]
    rw [hcount, htotal]
  · simp only [getDeterminacyState]
    exact le_max_left 0 _
  · simp only [getDeterminacyState]
    exact max_le (by norm_num) (min_le_left 1 _)
  · simp [getDeterminacyState]

/-- C1: `authorizeAction` allows exactly when the phase is `implementer`,
readiness for implementation holds, and some `todo` plan item's text
contains the tool name case-insensitively; every denial carries a reason,
and an allowance carries the id of the first matching item in document
order. -/
theorem validatePlannedToolExecution_spec (currentPhase : Option SasAgentPhase) (invariants : List SasInvariant)
    (plan : List SasPlanItem) (mappingReady : Bool) (toolName : List Char) :
    ((validatePlannedToolExecution currentPhase invariants plan mappingReady toolName).allowed = true
      ↔ currentPhase = some .implementer
        ∧ (getDeterminacyState invariants plan mappingReady).readyForImplementation = true
        ∧ ∃ item ∈ plan, toolMatches toolName item)
    ∧ ((validatePlannedToolExecution currentPhase invariants plan mappingReady toolName).allowed = false
        → ∃ s, (validatePlannedToolExecution currentPhase invariants plan mappingReady toolName).reason
            = some s)
    ∧ (∀ k item, plan.get? k = some item → toolMatches toolName item
        → (∀ j prev, j < k → plan.get? j = some prev → ¬ toolMatches toolName prev)
        → (validatePlannedToolExecution currentPhase invariants plan mappingReady toolName).allowed = true
        → (validatePlannedToolExecution currentPhase invariants plan mappingReady toolName).planItemId
            = some item.id) := by
  by_cases hph : currentPhase = some SasAgentPhase.implementer
  · by_cases hready : (getDeterminacyState invariants plan mappingReady).readyForImplementation = true
    · have hbranch : validatePlannedToolExecution currentPhase invariants plan mappingReady toolName
          = match plan.find? (fun item =>
              item.status == SasPlanStatus.todo
                && strIncludes (item.text.map Char.toLower) (toolName.map Char.toLower)) with
            | none => ⟨false, some denyMatchReason, none⟩
            | some matching => ⟨true, none, some matching.id⟩ := by
        unfold validatePlannedToolExecution
        rw [if_neg (by simp [hph])]
        rw [show (getDeterminacyState invariants plan mappingReady).plan = plan from rfl]
        rw [hready]
        simp
      cases hfind : plan.find? (fun item =>
          item.status == SasPlanStatus.todo
            && strIncludes (item.text.map Char.toLower) (toolName.map Char.toLower)) with
      | none =>
        rw [hbranch, hfind]
        refine ⟨?_, fun _ => ⟨denyMatchReason, rfl⟩, ?_⟩
        · simp only [Bool.false_eq_true, false_iff]
          rintro ⟨-, -, item, hmem, hmatch⟩
          have hfalse := List.find?_eq_none.mp hfind item hmem
          have htrue := (toolMatches_decide toolName item).mpr hmatch
          rw [htrue] at hfalse
          exact hfalse rfl
        · intro k item hk hmatch hleast hcon
          cases hcon
      | some m =>
        rw [hbranch, hfind]
        have hmem := List.mem_of_find?_eq_some hfind
        have hpmb := List.find?_some hfind
        have hpm : toolMatches toolName m := (toolMatches_decide toolName m).mp hpmb
        refine ⟨by simp only [true_iff]; exact ⟨hph, hready, m, hmem, hpm⟩, ?_, ?_⟩
        · intro hcon
          cases hcon
        · intro k item hk hmatch hleast _
          rcases (find?_eq_some_iff_first _ plan m).mp hfind with ⟨k2, hk2, hpm2, hleast2⟩
          have hkk : k = k2 := by
            rcases Nat.lt_trichotomy k k2 with hlt | heq | hgt
            · have hfalse := hleast2 k item hlt hk
              have htrue := (toolMatches_decide toolName item).mpr hmatch
              rw [htrue] at hfalse
              cases hfalse
            · exact heq
            · have hno := hleast k2 m hgt hk2
              exact absurd ((toolMatches_decide toolName m).mp hpm2) hno
          subst hkk
          rw [hk] at hk2
          injection hk2 with hk2
          subst hk2
          rfl
    · have hbranch : validatePlannedToolExecution currentPhase invariants plan mappingReady toolName
          = ⟨false, some denyReadyReason, none⟩ := by
        unfold validatePlannedToolExecution
        rw [if_neg (by simp [hph])]
        rw [if_pos (by simp only [Bool.not_eq_true] at hready; simp [hready])]
      rw [hbranch]
      refine ⟨by simp only [Bool.false_eq_true, false_iff]; rintro ⟨-, hcon, -⟩; exact hready hcon,
        fun _ => ⟨denyReadyReason, rfl⟩, ?_⟩
      intro k item hk hmatch hleast hcon
      cases hcon
  · have hbranch : validatePlannedToolExecution currentPhase invariants plan mappingReady toolName
        = ⟨false, some denyPhaseReason, none⟩ := by
      unfold validatePlannedToolExecution
      rw [if_pos hph]
    rw [hbranch]
    refine ⟨by simp only [Bool.false_eq_true, false_iff]; rintro ⟨hcon, -, -⟩; exact hph hcon,
      fun _ => ⟨denyPhaseReason, rfl⟩, ?_⟩
    intro k item hk hmatch hleast hcon
    cases hcon

/-- C1 witness: with phase `implementer`, one `unknown` invariant, and plan
`[todo "run lint", done "deploy"]`, the tool `"lint"` is allowed and mapped
to the first item's id `S2`. -/
theorem validatePlannedToolExecution_spec_witness :
    (validatePlannedToolExecution (some .implementer)
        [⟨"I1", ['x'], .unknown⟩]
        [⟨"S2", "run lint".data, .todo⟩, ⟨"S3", "deploy".data, .done⟩]
        true "lint".data).allowed = true
    ∧ (validatePlannedToolExecution (some .implementer)
        [⟨"I1", ['x'], .unknown⟩]
        [⟨"S2", "run lint".data, .todo⟩, ⟨"S3", "deploy".data, .done⟩]
        true "lint".data).planItemId = some "S2" := by
  have h := validatePlannedToolExecution_spec (some .implementer)
    [⟨"I1", ['x'], .unknown⟩]
    [⟨"S2", "run lint".data, .todo⟩, ⟨"S3", "deploy".data, .done⟩]
    true "lint".data
  have hready := readyForImplementation_of_all_unknown
    [⟨"I1", ['x'], .unknown⟩]
    [⟨"S2", "run lint".data, .todo⟩, ⟨"S3", "deploy".data, .done⟩]
    true (by decide) (by decide)
  have hmatch : toolMatches "lint".data ⟨"S2", "run lint".data, .todo⟩ := by decide
  have hallowed := h.1.mpr ⟨rfl, hready, ⟨"S2", "run lint".data, .todo⟩, by simp, hmatch⟩
  refine ⟨hallowed, ?_⟩
  exact h.2.2 0 ⟨"S2", "run lint".data, .todo⟩ rfl hmatch
    (fun j prev hj _ => absurd hj (Nat.not_lt_zero j)) hallowed

/-- C3 (code at the failing input): on the freshly created template, whose
Mapping-Layer body consists only of the four `": _"` placeholder lines, the
code's `hasMappingLayer` nevertheless returns `true` — its slice starts at
the heading line, which neither contains `"pending"` nor ends with `": _"`
— while the specified body-only check `hasMappingLayerSpec` returns
`false`. -/
theorem hasMappingLayer_freshTemplate_bug :
    hasMappingLayer freshTemplate = true ∧ hasMappingLayerSpec freshTemplate = false :=
  ⟨by decide, by decide⟩

/-- C4: `completeStep` marks exactly the plan items whose id equals the
given id as `done` (all other items are returned unchanged), and when some
invariant is `unknown` it rewrites the invariant list with exactly the
first `unknown` entry flipped to `satisfied`; with no `unknown` invariant
the invariant list is not written at all. -/
theorem markPlanStepComplete_spec (planItemId : String) (note : Option String)
    (planItems : List SasPlanItem) (invariants : List SasInvariant) :
    (∀ j, ((markPlanStepComplete planItemId note planItems invariants).planWritten).get? j
        = (planItems.get? j).map (fun item =>
            if item.id = planItemId then ⟨item.id, item.text, .done⟩ else item))
    ∧ ((∃ i ∈ invariants, i.status = .unknown) →
        ∃ k x, invariants.get? k = some x ∧ x.status = .unknown
          ∧ (∀ j y, j < k → invariants.get? j = some y → y.status ≠ .unknown)
          ∧ (markPlanStepComplete planItemId note planItems invariants).invariantsWritten
              = some (invariants.take k
                  ++ ⟨x.id, x.description, .satisfied⟩ :: invariants.drop (k + 1)))
    ∧ ((∀ i ∈ invariants, i.status ≠ .unknown) →
        (markPlanStepComplete planItemId note planItems invariants).invariantsWritten = none) := by
  refine ⟨?_, ?_, ?_⟩
  · intro j
    simp only [markPlanStepComplete, List.get?_map]
  · intro hex
    have hany : invariants.any (fun i => i.status == .unknown) = true := by
      simp only [List.any_eq_true, beq_iff_eq]
      exact hex
    rcases flipFirstUnknown_first invariants hany with ⟨k, x, hk, hx, hleast, hflip⟩
    refine ⟨k, x, hk, hx, hleast, ?_⟩
    simp only [markPlanStepComplete, if_pos hany, hflip]
  · intro hall
    have hany : invariants.any (fun i => i.status == .unknown) = false := by
      simp only [List.any_eq_false, beq_iff_eq]
      exact hall
    simp only [markPlanStepComplete, hany, Bool.false_eq_true, if_false]

/-- C4 witness: completing `S1` against two `unknown` invariants. -/
theorem markPlanStepComplete_spec_witness :
    (∀ j, ((markPlanStepComplete "S1" none [⟨"S1", ['a'], .todo⟩]
          [⟨"I1", ['x'], .unknown⟩, ⟨"I2", ['y'], .unknown⟩]).planWritten).get? j
        = (([⟨"S1", ['a'], .todo⟩] : List SasPlanItem).get? j).map (fun item =>
            if item.id = "S1" then ⟨item.id, item.text, .done⟩ else item))
    ∧ ((∃ i ∈ ([⟨"I1", ['x'], .unknown⟩, ⟨"I2", ['y'], .unknown⟩] : List SasInvariant),
          i.status = .unknown) →
        ∃ k x, ([⟨"I1", ['x'], .unknown⟩, ⟨"I2", ['y'], .unknown⟩]
            : List SasInvariant).get? k = some x ∧ x.status = .unknown
          ∧ (∀ j y, j < k → ([⟨"I1", ['x'], .unknown⟩, ⟨"I2", ['y'], .unknown⟩]
              : List SasInvariant).get? j = some y → y.status ≠ .unknown)
          ∧ (markPlanStepComplete "S1" none [⟨"S1", ['a'], .todo⟩]
              [⟨"I1", ['x'], .unknown⟩, ⟨"I2", ['y'], .unknown⟩]).invariantsWritten
              = some (([⟨"I1", ['x'], .unknown⟩, ⟨"I2", ['y'], .unknown⟩]
                  : List SasInvariant).take k
                ++ ⟨x.id, x.description, .satisfied⟩
                  :: ([⟨"I1", ['x'], .unknown⟩, ⟨"I2", ['y'], .unknown⟩]
                    : List SasInvariant).drop (k + 1)))
    ∧ ((∀ i ∈ ([⟨"I1", ['x'], .unknown⟩, ⟨"I2", ['y'], .unknown⟩] : List SasInvariant),
          i.status ≠ .unknown) →
        (markPlanStepComplete "S1" none [⟨"S1", ['a'], .todo⟩]
          [⟨"I1", ['x'], .unknown⟩, ⟨"I2", ['y'], .unknown⟩]).invariantsWritten = none) :=
  markPlanStepComplete_spec "S1" none [⟨"S1", ['a'], .todo⟩]
    [⟨"I1", ['x'], .unknown⟩, ⟨"I2", ['y'], .unknown⟩]

/-- C6: on the freshly created template the placeholder plan line decodes
as a genuine `todo` plan item (positional id `S2`), the Mechanics
placeholder yields no invariants, and `evaluateReadiness` already reports
readiness for implementation. -/
theorem freshTemplate_ready :
    readPlanItems freshTemplate = [⟨"S2", "Pending plan items".data, .todo⟩]
    ∧ readInvariants freshTemplate = []
    ∧ (getDeterminacyStateOfDoc freshTemplate).readyForImplementation = true := by
  have hplan : readPlanItems freshTemplate = [⟨"S2", "Pending plan items".data, .todo⟩] := by
    decide
  have hinv : readInvariants freshTemplate = [] := by decide
  refine ⟨hplan, hinv, ?_⟩
  unfold getDeterminacyStateOfDoc
  rw [hplan, hinv]
  exact readyForImplementation_of_all_unknown _ _ _ (by decide) (by decide)

/-- C8: when a file already exists at the derived path, `ensureSpecFile`
(called with any metadata sanitizing to the same container id, and any
initial task) leaves the file system unchanged and returns that same path;
the template is written only when no file exists there. -/
theorem ensureSpecFile_idempotent (now2 workspaceRoot : List Char) (fs : SasFs)
    (metadata metadata2 : SasContainerMetadata) (initialTask2 : Option (List Char))
    (hsame : sanitizeContainerId metadata2.containerId
      = sanitizeContainerId metadata.containerId) :
    (fileExistsAtPath fs (specFilePath workspaceRoot metadata.containerId) = true →
      ensureSpecFile true now2 workspaceRoot fs metadata2 initialTask2
        = (fs, some (specFilePath workspaceRoot metadata.containerId)))
    ∧ (fileExistsAtPath fs (specFilePath workspaceRoot metadata.containerId) = false →
      ensureSpecFile true now2 workspaceRoot fs metadata2 initialTask2
        = ((specFilePath workspaceRoot metadata.containerId,
            buildInitialTemplate now2 metadata2 initialTask2) :: fs,
           some (specFilePath workspaceRoot metadata.containerId))) := by
  have hpath : specFilePath workspaceRoot metadata2.containerId
      = specFilePath workspaceRoot metadata.containerId := by
    unfold specFilePath
    rw [hsame]
  constructor
  · intro hex
    unfold ensureSpecFile
    rw [hpath]
    simp only [Bool.not_true, Bool.false_eq_true, if_false, hex, if_true]
  · intro hnoex
    unfold ensureSpecFile
    rw [hpath]
    simp only [Bool.not_true, Bool.false_eq_true, if_false, hnoex]

/-- C8 witness: re-ensuring with differently-cased metadata that sanitizes
to the same id leaves the stored file untouched and returns the path. -/
theorem ensureSpecFile_idempotent_witness :
    sanitizeContainerId "Auth Tokens!!".data = sanitizeContainerId "auth tokens".data
    ∧ ensureSpecFile true "T2".data "/w".data
        [(specFilePath "/w".data "auth tokens".data, ['x'])]
        ⟨"Auth Tokens!!".data, "B".data, none, none, none, none⟩ none
      = ([(specFilePath "/w".data "auth tokens".data, ['x'])],
         some (specFilePath "/w".data "auth tokens".data)) := by
  have hsame : sanitizeContainerId
      (SasContainerMetadata.containerId ⟨"Auth Tokens!!".data, "B".data, none, none, none, none⟩)
      = sanitizeContainerId
        (SasContainerMetadata.containerId ⟨"auth tokens".data, "B".data, none, none, none, none⟩) := by
    decide
  refine ⟨hsame, ?_⟩
  exact (ensureSpecFile_idempotent "T2".data "/w".data
    [(specFilePath "/w".data "auth tokens".data, ['x'])]
    ⟨"auth tokens".data, "B".data, none, none, none, none⟩
    ⟨"Auth Tokens!!".data, "B".data, none, none, none, none⟩ none hsame).1 (by decide)

/-- C9: every storage failure is absorbed: failed reads yield the empty
invariant and plan lists, a `false` mapping flag, and an undefined prompt
context; a failed ensure yields an undefined path with the file system
unchanged; a failed append or body replacement leaves the document
unchanged; and authorization under a failed read is denied in every
phase. -/
theorem storageFailure_defaults :
    (readInvariantsCaught (Except.error ()) = [])
    ∧ (readPlanItemsCaught (Except.error ()) = [])
    ∧ (hasMappingLayerCaught (Except.error ()) = false)
    ∧ (∀ fileLabel scopePaths currentPhase maxChars,
        getSpecInstructions (Except.error ()) fileLabel scopePaths currentPhase maxChars = none)
    ∧ (∀ now workspaceRoot fs metadata initialTask,
        ensureSpecFile false now workspaceRoot fs metadata initialTask = (fs, none))
    ∧ (∀ writeOk content heading entry,
        appendToSectionCaught false writeOk content heading entry = content)
    ∧ (∀ readOk content heading entry,
        appendToSectionCaught readOk false content heading entry = content)
    ∧ (∀ writeOk content heading newBody,
        replaceSectionBodyCaught false writeOk content heading newBody = content)
    ∧ (∀ readOk content heading newBody,
        replaceSectionBodyCaught readOk false content heading newBody = content)
    ∧ (∀ currentPhase toolName,
        (validatePlannedToolExecutionCaught currentPhase (Except.error ()) toolName).allowed
          = false) := by
  refine ⟨rfl, rfl, rfl, fun _ _ _ _ => rfl, fun _ _ _ _ _ => rfl, fun _ _ _ _ => rfl,
    ?_, fun _ _ _ _ => rfl, ?_, ?_⟩
  · intro readOk content heading entry
    cases readOk <;> rfl
  · intro readOk content heading newBody
    cases readOk <;> rfl
  · intro currentPhase toolName
    cases currentPhase with
    | none => rfl
    | some p => cases p <;> rfl

/-- C10: with a plan-item id that matches nothing, `markPlanStepComplete`
still hands the plan (statuses unchanged) to the plan writer, still flips
the first `unknown` invariant — the invariant advancement is independent of
the id and note — and still produces the implementation-log summary. -/
theorem markPlanStepComplete_unmatched (planItemId : String) (note : Option String)
    (planItems : List SasPlanItem) (invariants : List SasInvariant)
    (hno : ∀ item ∈ planItems, item.id ≠ planItemId) :
    (markPlanStepComplete planItemId note planItems invariants).planWritten = planItems
    ∧ (∀ pid2 note2,
        (markPlanStepComplete pid2 note2 planItems invariants).invariantsWritten
          = (markPlanStepComplete planItemId note planItems invariants).invariantsWritten)
    ∧ ((∃ i ∈ invariants, i.status = .unknown) →
        ∃ k x, invariants.get? k = some x ∧ x.status = .unknown
          ∧ (∀ j y, j < k → invariants.get? j = some y → y.status ≠ .unknown)
          ∧ (markPlanStepComplete planItemId note planItems invariants).invariantsWritten
              = some (invariants.take k
                  ++ ⟨x.id, x.description, .satisfied⟩ :: invariants.drop (k + 1)))
    ∧ (markPlanStepComplete planItemId note planItems invariants).logSummary
        = (match note with
           | some n => planItemId ++ ": " ++ n
           | none => "Completed plan step " ++ planItemId) := by
  refine ⟨?_, fun _ _ => rfl, ?_, ?_⟩
  · simp only [markPlanStepComplete]
    have : planItems.map (fun item =>
        if item.id = planItemId then ⟨item.id, item.text, .done⟩ else item) = planItems := by
      induction planItems with
      | nil => rfl
      | cons a t ih =>
        simp only [List.map_cons, if_neg (hno a (by simp)), List.cons.injEq, true_and]
        exact ih (fun item hmem => hno item (by simp [hmem]))
    exact this
  · intro hex
    have hany : invariants.any (fun i => i.status == .unknown) = true := by
      simp only [List.any_eq_true, beq_iff_eq]
      exact hex
    rcases flipFirstUnknown_first invariants hany with ⟨k, x, hk, hx, hleast, hflip⟩
    refine ⟨k, x, hk, hx, hleast, ?_⟩
    simp only [markPlanStepComplete, if_pos hany, hflip]
  · cases note <;> rfl

/-- C10 witness: completing the unmatched id `S9` leaves both items `todo`,
still flips the first `unknown` invariant, and still logs. -/
theorem markPlanStepComplete_unmatched_witness :
    (∀ item ∈ ([⟨"S1", ['a'], .todo⟩, ⟨"S2", ['b'], .todo⟩] : List SasPlanItem),
        item.id ≠ "S9")
    ∧ (markPlanStepComplete "S9" none [⟨"S1", ['a'], .todo⟩, ⟨"S2", ['b'], .todo⟩]
        [⟨"I1", ['x'], .unknown⟩]).planWritten
        = [⟨"S1", ['a'], .todo⟩, ⟨"S2", ['b'], .todo⟩]
    ∧ (markPlanStepComplete "S9" none [⟨"S1", ['a'], .todo⟩, ⟨"S2", ['b'], .todo⟩]
        [⟨"I1", ['x'], .unknown⟩]).logSummary = "Completed plan step S9" := by
  have hno : ∀ item ∈ ([⟨"S1", ['a'], .todo⟩, ⟨"S2", ['b'], .todo⟩] : List SasPlanItem),
      item.id ≠ "S9" := by decide
  have h := markPlanStepComplete_unmatched "S9" none
    [⟨"S1", ['a'], .todo⟩, ⟨"S2", ['b'], .todo⟩] [⟨"I1", ['x'], .unknown⟩] hno
  exact ⟨hno, h.1, h.2.2.2⟩

/-- C7: both section-store operations touch only the modified section's
body, in both placements a section can have. On a document shaped
`A ++ H ++ "\n" ++ B ++ "\n## " ++ C` — the modified section is followed by
another section — whose first occurrence of the heading `H` starts the
section and whose body `B` contains no further section marker,
`appendToSection` and `replaceSectionBody` rebuild the document as the
untouched prefix `A`, the heading line, the new body, one blank line, and
the untouched tail `"## " ++ C`. On a document shaped `A ++ H ++ "\n" ++ B`
— the modified section is the last one, the code's `-1` branch for the next
heading — they rebuild it as the untouched prefix `A`, the heading line,
the new body and a blank line. Either way the bytes of every other section
(heading line and body text, lying inside `A` or inside `"## " ++ C`) and
all text before the modified section's body are unchanged. -/
theorem sectionStore_frame (A H B C entry newBody : List Char) :
    ((∀ j, j < A.length →
        ¬ H <+: (A ++ H ++ "\n".data ++ B ++ "\n## ".data ++ C).drop j) →
      (∀ j, A.length + H.length ≤ j → j < A.length + H.length + 1 + B.length →
        ¬ ("\n## ".data <+: (A ++ H ++ "\n".data ++ B ++ "\n## ".data ++ C).drop j)) →
      appendToSection (A ++ H ++ "\n".data ++ B ++ "\n## ".data ++ C) H entry
        = A ++ H ++ "\n".data
            ++ (if (trimEnd B).isEmpty then entry else trimEnd B ++ "\n".data ++ entry)
            ++ "\n\n".data ++ "## ".data ++ C
      ∧ replaceSectionBody (A ++ H ++ "\n".data ++ B ++ "\n## ".data ++ C) H newBody
        = A ++ H ++ "\n".data ++ trimStr newBody ++ "\n\n".data ++ "## ".data ++ C)
    ∧ ((∀ j, j < A.length → ¬ H <+: (A ++ H ++ "\n".data ++ B).drop j) →
      (∀ j, A.length + H.length ≤ j → j < A.length + H.length + 1 + B.length →
        ¬ ("\n## ".data <+: (A ++ H ++ "\n".data ++ B).drop j)) →
      appendToSection (A ++ H ++ "\n".data ++ B) H entry
        = A ++ H ++ "\n".data
            ++ (if (trimEnd B).isEmpty then entry else trimEnd B ++ "\n".data ++ entry)
            ++ "\n\n".data
      ∧ replaceSectionBody (A ++ H ++ "\n".data ++ B) H newBody
        = A ++ H ++ "\n".data ++ trimStr newBody ++ "\n\n".data) := by
  constructor
  · intro h1 h2
    set content := A ++ H ++ "\n".data ++ B ++ "\n## ".data ++ C with hcontent
    have hdropA : content.drop A.length = H ++ ("\n".data ++ B ++ "\n## ".data ++ C) := by
      rw [hcontent, show A ++ H ++ "\n".data ++ B ++ "\n## ".data ++ C
        = A ++ (H ++ ("\n".data ++ B ++ "\n## ".data ++ C)) by simp]
      exact List.drop_left' rfl
    have hdropAH : content.drop (A.length + H.length)
        = "\n".data ++ B ++ "\n## ".data ++ C := by
      rw [hcontent, show A ++ H ++ "\n".data ++ B ++ "\n## ".data ++ C
        = (A ++ H) ++ ("\n".data ++ B ++ "\n## ".data ++ C) by simp]
      exact List.drop_left' (by simp)
    have hidx : strIndexOf? content H = some A.length := by
      rw [strIndexOf?_eq_some_iff]
      refine ⟨?_, h1⟩
      rw [hdropA]
      exact List.prefix_append _ _
    have hnl : strIndexOfFrom content "\n".data (A.length + H.length)
        = some (A.length + H.length) := by
      unfold strIndexOfFrom
      rw [hdropAH]
      have h0 : strIndexOf? ("\n".data ++ B ++ "\n## ".data ++ C) "\n".data = some 0 := by
        rw [strIndexOf?_eq_some_iff]
        refine ⟨?_, by omega⟩
        rw [List.drop_zero, show "\n".data ++ B ++ "\n## ".data ++ C
          = "\n".data ++ (B ++ "\n## ".data ++ C) by simp]
        exact List.prefix_append _ _
      rw [h0]
      simp
    have hsep : strIndexOfFrom content "\n## ".data (A.length + H.length)
        = some (A.length + H.length + 1 + B.length) := by
      unfold strIndexOfFrom
      rw [hdropAH]
      have hkey : strIndexOf? ("\n".data ++ B ++ "\n## ".data ++ C) "\n## ".data
          = some (1 + B.length) := by
        rw [strIndexOf?_eq_some_iff]
        constructor
        · have hdd : ("\n".data ++ B ++ "\n## ".data ++ C).drop (1 + B.length)
              = "\n## ".data ++ C := by
            rw [show "\n".data ++ B ++ "\n## ".data ++ C
              = ("\n".data ++ B) ++ ("\n## ".data ++ C) by simp]
            exact List.drop_left' (by simp; omega)
          rw [hdd]
          exact List.prefix_append _ _
        · intro j hj
          have hdj : ("\n".data ++ B ++ "\n## ".data ++ C).drop j
              = content.drop (A.length + H.length + j) := by
            rw [← hdropAH, List.drop_drop]
          rw [hdj]
          exact h2 (A.length + H.length + j) (by omega) (by omega)
      rw [hkey]
      simp only [Option.map_some']
      congr 1
      omega
    have htake1 : content.take (A.length + H.length + 1) = A ++ H ++ "\n".data := by
      rw [hcontent, show A ++ H ++ "\n".data ++ B ++ "\n## ".data ++ C
        = (A ++ H ++ "\n".data) ++ (B ++ "\n## ".data ++ C) by simp]
      exact List.take_left' (by simp; omega)
    have hslice : strSlice content (A.length + H.length + 1)
        (A.length + H.length + 1 + B.length) = B := by
      unfold strSlice
      have htake2 : content.take (A.length + H.length + 1 + B.length)
          = (A ++ H ++ "\n".data ++ B) := by
        rw [hcontent, show A ++ H ++ "\n".data ++ B ++ "\n## ".data ++ C
          = (A ++ H ++ "\n".data ++ B) ++ ("\n## ".data ++ C) by simp]
        exact List.take_left' (by simp; omega)
      rw [htake2, show A ++ H ++ "\n".data ++ B = (A ++ H ++ "\n".data) ++ B by simp]
      exact List.drop_left' (by simp; omega)
    have hafter : content.drop (A.length + H.length + 1 + B.length) = "\n## ".data ++ C := by
      rw [hcontent, show A ++ H ++ "\n".data ++ B ++ "\n## ".data ++ C
        = (A ++ H ++ "\n".data ++ B) ++ ("\n## ".data ++ C) by simp]
      exact List.drop_left' (by simp; omega)
    have htrim : trimStart ("\n## ".data ++ C) = "## ".data ++ C := by
      have hnlws : Char.isWhitespace '\n' = true := by decide
      have hhashws : Char.isWhitespace '#' = false := by decide
      show trimStart ('\n' :: '#' :: '#' :: ' ' :: C) = '#' :: '#' :: ' ' :: C
      simp [trimStart, List.dropWhile_cons, hnlws, hhashws]
    constructor
    · unfold appendToSection
      rw [hidx]
      simp only [hnl, hsep]
      rw [htake1, hslice, hafter, htrim]
      by_cases hb : (trimEnd B).isEmpty
      · rw [if_pos hb]
        simp
      · rw [if_neg hb]
        simp
    · unfold replaceSectionBody
      rw [hidx]
      simp only [hnl, hsep]
      rw [htake1, hafter, htrim]
      simp
  · intro h1 h4
    set content := A ++ H ++ "\n".data ++ B with hcontent
    have hlen : content.length = A.length + H.length + 1 + B.length := by
      rw [hcontent]
      simp
      omega
    have hdropA : content.drop A.length = H ++ ("\n".data ++ B) := by
      rw [hcontent, show A ++ H ++ "\n".data ++ B = A ++ (H ++ ("\n".data ++ B)) by simp]
      exact List.drop_left' rfl
    have hdropAH : content.drop (A.length + H.length) = "\n".data ++ B := by
      rw [hcontent, show A ++ H ++ "\n".data ++ B = (A ++ H) ++ ("\n".data ++ B) by simp]
      exact List.drop_left' (by simp)
    have hidx : strIndexOf? content H = some A.length := by
      rw [strIndexOf?_eq_some_iff]
      refine ⟨?_, h1⟩
      rw [hdropA]
      exact List.prefix_append _ _
    have hnl : strIndexOfFrom content "\n".data (A.length + H.length)
        = some (A.length + H.length) := by
      unfold strIndexOfFrom
      rw [hdropAH]
      have h0 : strIndexOf? ("\n".data ++ B) "\n".data = some 0 := by
        rw [strIndexOf?_eq_some_iff]
        refine ⟨?_, by omega⟩
        rw [List.drop_zero]
        exact List.prefix_append _ _
      rw [h0]
      simp
    have hnone : strIndexOfFrom content "\n## ".data (A.length + H.length) = none := by
      unfold strIndexOfFrom
      cases hca : strIndexOf? (content.drop (A.length + H.length)) "\n## ".data with
      | none => rfl
      | some i =>
        exfalso
        have hsome : (strIndexOf? (content.drop (A.length + H.length)) "\n## ".data).isSome
            = true := by
          rw [hca]
          rfl
        rcases (strIndexOf?_isSome_iff _ _).mp hsome with ⟨i2, hi⟩
        rw [List.drop_drop] at hi
        rcases Nat.lt_or_ge (A.length + H.length + i2) (A.length + H.length + 1 + B.length)
          with hlt | hge
        · exact h4 (A.length + H.length + i2) (by omega) hlt hi
        · have hnil : content.drop (A.length + H.length + i2) = [] := by
            apply List.drop_eq_nil_of_le
            omega
          rw [hnil] at hi
          have hle := hi.length_le
          simp at hle
    have htake1 : content.take (A.length + H.length + 1) = A ++ H ++ "\n".data := by
      rw [hcontent, show A ++ H ++ "\n".data ++ B = (A ++ H ++ "\n".data) ++ B by simp]
      exact List.take_left' (by simp; omega)
    have hslice : strSlice content (A.length + H.length + 1) content.length = B := by
      unfold strSlice
      rw [List.take_length]
      rw [hcontent, show A ++ H ++ "\n".data ++ B = (A ++ H ++ "\n".data) ++ B by simp]
      exact List.drop_left' (by simp; omega)
    have hafter : content.drop content.length = [] := List.drop_length content
    constructor
    · unfold appendToSection
      rw [hidx]
      simp only [hnl, hnone]
      rw [htake1, hslice, hafter]
      by_cases hb : (trimEnd B).isEmpty
      · rw [if_pos hb]
        simp [trimStart]
      · rw [if_neg hb]
        simp [trimStart]
    · unfold replaceSectionBody
      rw [hidx]
      simp only [hnl, hnone]
      rw [htake1, hafter]
      simp [trimStart]

/-- C7 witness: two concrete documents. In the first, section `## X` sits
between text and a later section `## Y`; in the second, `## X` is the last
section with `## Y` before it. Appending and replacing leave the other
section's bytes identical in both. -/
theorem sectionStore_frame_witness :
    (appendToSection ("intro\n".data ++ "## X".data ++ "\n".data ++ "- a".data
          ++ "\n## ".data ++ "Y\nbody".data) "## X".data "- e".data
        = "intro\n".data ++ "## X".data ++ "\n".data
            ++ (if (trimEnd "- a".data).isEmpty then "- e".data
                else trimEnd "- a".data ++ "\n".data ++ "- e".data)
            ++ "\n\n".data ++ "## ".data ++ "Y\nbody".data
      ∧ replaceSectionBody ("intro\n".data ++ "## X".data ++ "\n".data ++ "- a".data
          ++ "\n## ".data ++ "Y\nbody".data) "## X".data "NB".data
        = "intro\n".data ++ "## X".data ++ "\n".data ++ trimStr "NB".data
            ++ "\n\n".data ++ "## ".data ++ "Y\nbody".data)
    ∧ (appendToSection ("## Y\nbody\n".data ++ "## X".data ++ "\n".data ++ "- q".data)
          "## X".data "- e".data
        = "## Y\nbody\n".data ++ "## X".data ++ "\n".data
            ++ (if (trimEnd "- q".data).isEmpty then "- e".data
                else trimEnd "- q".data ++ "\n".data ++ "- e".data)
            ++ "\n\n".data
      ∧ replaceSectionBody ("## Y\nbody\n".data ++ "## X".data ++ "\n".data ++ "- q".data)
          "## X".data "NB".data
        = "## Y\nbody\n".data ++ "## X".data ++ "\n".data ++ trimStr "NB".data
            ++ "\n\n".data) :=
  ⟨(sectionStore_frame "intro\n".data "## X".data "- a".data "Y\nbody".data
      "- e".data "NB".data).1 (by decide) (by decide),
   (sectionStore_frame "## Y\nbody\n".data "## X".data "- q".data []
      "- e".data "NB".data).2 (by decide) (by decide)⟩

end SasSpec
